import Mathlib

/-!
Verification development for the Particle-Network-Animation repository.

The JavaScript source is shallowly embedded: JS `number` arithmetic is
modelled by exact rationals (`ℚ`), `Math.floor` by `Int.floor`, and the few
places where the source calls `Math.sqrt` take the square root as an extra
argument constrained by a hypothesis (`len ≥ 0 ∧ len ^ 2 = squaredNorm`).
Where IEEE `NaN` semantics decide a result (the zero-length-segment path of
`intersectsLineSphere`), JS numbers are modelled as `Option ℚ` with `none`
standing for `NaN`.

Sources embedded: `Particle.esm.js` (Particle, ExclusionZone),
`SpatialGrid` and `AnimationController` modules, `ShapeManager.esm.js`,
and the connection-enumeration loop of `Particle3DMesh.animate`.
-/

namespace PNA

/-- Per-particle state, from the `Particle` class (`Particle.esm.js`).
`id` models JS object identity (`===` between array elements); the array
built by `initParticles` holds pairwise-distinct objects, modelled as
pairwise-distinct ids.  The constructor initializes `targetX/Y/Z` to `null`;
since the source reads the target fields only inside the
`if (this.inTransition)` branch, and `setTarget` is the only writer of
`inTransition := true` and always writes all three targets, the `null`
state is represented by `inTransition = false` alone and the target fields
are plain rationals. -/
structure Particle where
  id : ℕ
  x : ℚ
  y : ℚ
  z : ℚ
  vx : ℚ
  vy : ℚ
  vz : ℚ
  baseVy : ℚ
  targetX : ℚ
  targetY : ℚ
  targetZ : ℚ
  originalX : ℚ
  originalY : ℚ
  originalZ : ℚ
  inTransition : Bool
  prevX : ℚ
  prevY : ℚ
  prevZ : ℚ
deriving DecidableEq, Repr

/-- Squared Euclidean distance between two particles' positions.  The
connection loop of `Particle3DMesh.animate` compares
`Math.sqrt(dx*dx+dy*dy+dz*dz) < CONNECTION_DISTANCE`; for a nonnegative
threshold this is equivalent to comparing the squares, which is how the
distance filter is stated below. -/
def distSq (p q : Particle) : ℚ :=
  (p.x - q.x) ^ 2 + (p.y - q.y) ^ 2 + (p.z - q.z) ^ 2

/-- The spatial grid (`SpatialGrid` class).  JS stores buckets in an object
keyed by the string `"cx_cy_cz"`; since that encoding is injective on
integer triples, keys are modelled directly as `ℤ × ℤ × ℤ`, and the bucket
map as a total function defaulting to the empty list (JS reads a missing
key as absent, treated as an empty bucket). -/
structure SpatialGrid where
  cellSize : ℚ
  bound : ℚ
  grid : ℤ × ℤ × ℤ → List Particle

/-- `SpatialGrid.clear`. -/
def SpatialGrid.clear (g : SpatialGrid) : SpatialGrid :=
  { g with grid := fun _ => [] }

/-- `SpatialGrid.getCellKey`: `Math.floor((coord + bound) / cellSize)` per
axis. -/
def SpatialGrid.getCellKey (g : SpatialGrid) (x y z : ℚ) : ℤ × ℤ × ℤ :=
  (⌊(x + g.bound) / g.cellSize⌋, ⌊(y + g.bound) / g.cellSize⌋, ⌊(z + g.bound) / g.cellSize⌋)

/-- `SpatialGrid.addParticle`: push the particle onto the bucket of its
cell key (creating the bucket when absent). -/
def SpatialGrid.addParticle (g : SpatialGrid) (p : Particle) : SpatialGrid :=
  { g with grid := fun k =>
      if k = g.getCellKey p.x p.y p.z then g.grid k ++ [p] else g.grid k }

/-- `SpatialGrid.addParticles`: clear, then insert every particle in array
order. -/
def SpatialGrid.addParticles (g : SpatialGrid) (ps : List Particle) : SpatialGrid :=
  ps.foldl SpatialGrid.addParticle g.clear

/-- `SpatialGrid.getNeighborKeys`: the 27 keys of the 3×3×3 neighborhood,
enumerated in the source's `dx`, `dy`, `dz` loop order. -/
def SpatialGrid.getNeighborKeys (k : ℤ × ℤ × ℤ) : List (ℤ × ℤ × ℤ) :=
  ([-1, 0, 1] : List ℤ).bind fun dx =>
    ([-1, 0, 1] : List ℤ).bind fun dy =>
      ([-1, 0, 1] : List ℤ).map fun dz => (k.1 + dx, k.2.1 + dy, k.2.2 + dz)

/-- `SpatialGrid.getParticlesInCell`. -/
def SpatialGrid.getParticlesInCell (g : SpatialGrid) (k : ℤ × ℤ × ℤ) : List Particle :=
  g.grid k

/-- `SpatialGrid.getParticlesInNeighborhood`: concatenate the buckets of
the 27 neighbor keys. -/
def SpatialGrid.getParticlesInNeighborhood (g : SpatialGrid) (k : ℤ × ℤ × ℤ) : List Particle :=
  (SpatialGrid.getNeighborKeys k).bind g.grid

theorem SpatialGrid.addParticle_cellSize (g : SpatialGrid) (p : Particle) :
    (g.addParticle p).cellSize = g.cellSize := rfl

theorem SpatialGrid.addParticle_bound (g : SpatialGrid) (p : Particle) :
    (g.addParticle p).bound = g.bound := rfl

theorem SpatialGrid.addParticle_getCellKey (g : SpatialGrid) (p : Particle) (x y z : ℚ) :
    (g.addParticle p).getCellKey x y z = g.getCellKey x y z := rfl

/-- Characterization of the bucket map after folding `addParticle` over a
particle list: each bucket holds the grid's previous content followed by
the particles whose cell key matches, in array order. -/
theorem SpatialGrid.foldl_addParticle_grid (ps : List Particle) (g : SpatialGrid)
    (k : ℤ × ℤ × ℤ) :
    (ps.foldl SpatialGrid.addParticle g).grid k =
      g.grid k ++ ps.filter (fun p => g.getCellKey p.x p.y p.z = k) := by
  induction ps generalizing g with
  | nil => simp
  | cons p ps ih =>
    simp only [List.foldl_cons, ih (g.addParticle p)]
    simp only [SpatialGrid.addParticle_getCellKey, List.filter_cons]
    by_cases hk : g.getCellKey p.x p.y p.z = k
    · simp [SpatialGrid.addParticle, hk, List.append_assoc]
    · have hk' : ¬ k = g.getCellKey p.x p.y p.z := fun h => hk h.symm
      simp [SpatialGrid.addParticle, hk, hk']

theorem SpatialGrid.addParticles_grid (g : SpatialGrid) (ps : List Particle)
    (k : ℤ × ℤ × ℤ) :
    (g.addParticles ps).grid k = ps.filter (fun p => g.getCellKey p.x p.y p.z = k) := by
  unfold SpatialGrid.addParticles
  rw [SpatialGrid.foldl_addParticle_grid]
  rfl

theorem SpatialGrid.foldl_addParticle_cellSize (ps : List Particle) (g : SpatialGrid) :
    (ps.foldl SpatialGrid.addParticle g).cellSize = g.cellSize := by
  induction ps generalizing g with
  | nil => rfl
  | cons p ps ih => simpa using ih (g.addParticle p)

theorem SpatialGrid.foldl_addParticle_bound (ps : List Particle) (g : SpatialGrid) :
    (ps.foldl SpatialGrid.addParticle g).bound = g.bound := by
  induction ps generalizing g with
  | nil => rfl
  | cons p ps ih => simpa using ih (g.addParticle p)

theorem SpatialGrid.addParticles_cellSize (g : SpatialGrid) (ps : List Particle) :
    (g.addParticles ps).cellSize = g.cellSize :=
  SpatialGrid.foldl_addParticle_cellSize ps g.clear

theorem SpatialGrid.addParticles_bound (g : SpatialGrid) (ps : List Particle) :
    (g.addParticles ps).bound = g.bound :=
  SpatialGrid.foldl_addParticle_bound ps g.clear

/-- A particle of the indexed set sits in the bucket of its own cell key. -/
theorem SpatialGrid.mem_addParticles_self (g : SpatialGrid) (ps : List Particle)
    (p : Particle) (hp : p ∈ ps) :
    p ∈ (g.addParticles ps).grid (g.getCellKey p.x p.y p.z) := by
  rw [SpatialGrid.addParticles_grid]
  exact List.mem_filter.mpr ⟨hp, by simp⟩

/-- Any key whose components each differ by at most one from `k`'s is among
the 27 neighbor keys of `k`. -/
theorem SpatialGrid.mem_getNeighborKeys (k k' : ℤ × ℤ × ℤ)
    (h1 : |k'.1 - k.1| ≤ 1) (h2 : |k'.2.1 - k.2.1| ≤ 1) (h3 : |k'.2.2 - k.2.2| ≤ 1) :
    k' ∈ SpatialGrid.getNeighborKeys k := by
  rw [abs_le] at h1 h2 h3
  have m1 : k'.1 - k.1 ∈ ([-1, 0, 1] : List ℤ) := by
    simp only [List.mem_cons, List.mem_singleton]
    omega
  have m2 : k'.2.1 - k.2.1 ∈ ([-1, 0, 1] : List ℤ) := by
    simp only [List.mem_cons, List.mem_singleton]
    omega
  have m3 : k'.2.2 - k.2.2 ∈ ([-1, 0, 1] : List ℤ) := by
    simp only [List.mem_cons, List.mem_singleton]
    omega
  unfold SpatialGrid.getNeighborKeys
  refine List.mem_bind.mpr ⟨k'.1 - k.1, m1, ?_⟩
  refine List.mem_bind.mpr ⟨k'.2.1 - k.2.1, m2, ?_⟩
  refine List.mem_map.mpr ⟨k'.2.2 - k.2.2, m3, ?_⟩
  simp

/-- Floor-of-quotient cells of two nearby coordinates differ by at most
one: if `|a − b| < s` with `s > 0` then `|⌊a/s⌋ − ⌊b/s⌋| ≤ 1`. -/
theorem floor_div_near (a b s : ℚ) (hs : 0 < s) (h : |a - b| < s) :
    |⌊a / s⌋ - ⌊b / s⌋| ≤ 1 := by
  have hab : a - b < s := lt_of_abs_lt h
  have hba : b - a < s := lt_of_abs_lt (abs_sub_comm a b ▸ h)
  have h1 : a / s ≤ b / s + 1 := by
    have : (a - b) / s < 1 := (div_lt_one hs).mpr hab
    have := sub_div a b s ▸ this
    linarith
  have h2 : b / s ≤ a / s + 1 := by
    have : (b - a) / s < 1 := (div_lt_one hs).mpr hba
    have := sub_div b a s ▸ this
    linarith
  have f1 : ⌊a / s⌋ ≤ ⌊b / s⌋ + 1 := by
    have := Int.floor_le_floor h1
    simpa [Int.floor_add_one] using this
  have f2 : ⌊b / s⌋ ≤ ⌊a / s⌋ + 1 := by
    have := Int.floor_le_floor h2
    simpa [Int.floor_add_one] using this
  rw [abs_le]
  omega

/-- A squared-distance bound gives a per-axis bound: each coordinate
difference of two particles within squared distance `< D²` is `< D` in
magnitude (for `D > 0`). -/
theorem axis_lt_of_distSq_lt (p q : Particle) (D : ℚ) (hD : 0 < D)
    (h : distSq p q < D ^ 2) :
    |p.x - q.x| < D ∧ |p.y - q.y| < D ∧ |p.z - q.z| < D := by
  unfold distSq at h
  refine ⟨?_, ?_, ?_⟩ <;>
  · refine abs_lt_of_sq_lt_sq ?_ (le_of_lt hD)
    nlinarith [sq_nonneg (p.x - q.x), sq_nonneg (p.y - q.y), sq_nonneg (p.z - q.z)]

/-- Core neighborhood-completeness step: a particle whose every coordinate
is within `cellSize` of the query particle's lands in one of the 27
neighbor buckets of the query particle's cell. -/
theorem mem_neighborhood_of_close (g : SpatialGrid) (ps : List Particle) (p q : Particle)
    (hq : q ∈ ps) (hcell : 0 < g.cellSize)
    (hx : |p.x - q.x| < g.cellSize) (hy : |p.y - q.y| < g.cellSize)
    (hz : |p.z - q.z| < g.cellSize) :
    q ∈ (g.addParticles ps).getParticlesInNeighborhood (g.getCellKey p.x p.y p.z) := by
  have hmem : q ∈ (g.addParticles ps).grid (g.getCellKey q.x q.y q.z) :=
    SpatialGrid.mem_addParticles_self g ps q hq
  have hkey : g.getCellKey q.x q.y q.z ∈
      SpatialGrid.getNeighborKeys (g.getCellKey p.x p.y p.z) := by
    refine SpatialGrid.mem_getNeighborKeys _ _ ?_ ?_ ?_ <;>
      simp only [SpatialGrid.getCellKey]
    · refine floor_div_near _ _ _ hcell ?_
      have : (q.x + g.bound) - (p.x + g.bound) = -(p.x - q.x) := by ring
      rw [this, abs_neg]; exact hx
    · refine floor_div_near _ _ _ hcell ?_
      have : (q.y + g.bound) - (p.y + g.bound) = -(p.y - q.y) := by ring
      rw [this, abs_neg]; exact hy
    · refine floor_div_near _ _ _ hcell ?_
      have : (q.z + g.bound) - (p.z + g.bound) = -(p.z - q.z) := by ring
      rw [this, abs_neg]; exact hz
  exact List.mem_bind.mpr ⟨g.getCellKey q.x q.y q.z, hkey, hmem⟩

/-- The rebuilt grid computes the same cell keys as the grid it was built
from (`addParticles` leaves `cellSize` and `bound` untouched). -/
theorem SpatialGrid.addParticles_getCellKey (g : SpatialGrid) (ps : List Particle)
    (x y z : ℚ) : (g.addParticles ps).getCellKey x y z = g.getCellKey x y z := by
  unfold SpatialGrid.getCellKey
  rw [SpatialGrid.addParticles_cellSize, SpatialGrid.addParticles_bound]

/-- C1: for every particle set indexed by `addParticles` and every pair
`p`, `q` in it, if the Euclidean distance between `p` and `q` is below the
connection-distance threshold `D` and `D ≤ cellSize`, then `q` appears in
`getParticlesInNeighborhood (getCellKey p.x p.y p.z)` on the rebuilt grid
and symmetrically `p` appears in `q`'s neighborhood query. -/
theorem C1_grid_completeness (cellSize bound D : ℚ) (ps : List Particle) (p q : Particle)
    (hp : p ∈ ps) (hq : q ∈ ps) (hD : 0 < D) (hDcell : D ≤ cellSize)
    (hdist : distSq p q < D ^ 2) :
    q ∈ ((SpatialGrid.mk cellSize bound fun _ => []).addParticles ps).getParticlesInNeighborhood
        (((SpatialGrid.mk cellSize bound fun _ => []).addParticles ps).getCellKey p.x p.y p.z) ∧
    p ∈ ((SpatialGrid.mk cellSize bound fun _ => []).addParticles ps).getParticlesInNeighborhood
        (((SpatialGrid.mk cellSize bound fun _ => []).addParticles ps).getCellKey q.x q.y q.z) := by
  obtain ⟨hx, hy, hz⟩ := axis_lt_of_distSq_lt p q D hD hdist
  have hcell : (0:ℚ) < cellSize := lt_of_lt_of_le hD hDcell
  have hx' := lt_of_lt_of_le hx hDcell
  have hy' := lt_of_lt_of_le hy hDcell
  have hz' := lt_of_lt_of_le hz hDcell
  rw [SpatialGrid.addParticles_getCellKey, SpatialGrid.addParticles_getCellKey]
  constructor
  · exact mem_neighborhood_of_close _ ps p q hq hcell hx' hy' hz'
  · refine mem_neighborhood_of_close _ ps q p hp hcell ?_ ?_ ?_ <;>
      rw [abs_sub_comm] <;> assumption

/-- A particle record with the given id and position and all other fields
zeroed; used to build concrete evaluation inputs. -/
def mkTestParticle (i : ℕ) (x y z : ℚ) : Particle :=
  ⟨i, x, y, z, 0, 0, 0, 0, 0, 0, 0, 0, 0, 0, false, 0, 0, 0⟩

theorem C1_grid_completeness_witness :
    mkTestParticle 0 0 0 0 ∈ [mkTestParticle 0 0 0 0, mkTestParticle 1 1 0 0] ∧
    (0:ℚ) < 2 ∧ (2:ℚ) ≤ 2 ∧
    distSq (mkTestParticle 0 0 0 0) (mkTestParticle 1 1 0 0) < 2 ^ 2 ∧
    (mkTestParticle 1 1 0 0 ∈
      ((SpatialGrid.mk 2 10 fun _ => []).addParticles
          [mkTestParticle 0 0 0 0, mkTestParticle 1 1 0 0]).getParticlesInNeighborhood
        (((SpatialGrid.mk 2 10 fun _ => []).addParticles
            [mkTestParticle 0 0 0 0, mkTestParticle 1 1 0 0]).getCellKey
          (mkTestParticle 0 0 0 0).x (mkTestParticle 0 0 0 0).y (mkTestParticle 0 0 0 0).z) ∧
    mkTestParticle 0 0 0 0 ∈
      ((SpatialGrid.mk 2 10 fun _ => []).addParticles
          [mkTestParticle 0 0 0 0, mkTestParticle 1 1 0 0]).getParticlesInNeighborhood
        (((SpatialGrid.mk 2 10 fun _ => []).addParticles
            [mkTestParticle 0 0 0 0, mkTestParticle 1 1 0 0]).getCellKey
          (mkTestParticle 1 1 0 0).x (mkTestParticle 1 1 0 0).y (mkTestParticle 1 1 0 0).z)) :=
  ⟨by decide, by norm_num, le_refl 2, by norm_num [distSq, mkTestParticle],
    C1_grid_completeness 2 10 2 _ _ _ (by decide) (by decide) (by norm_num) (le_refl 2)
      (by norm_num [distSq, mkTestParticle])⟩

/-- A point with `x`, `y`, `z` coordinates (the `{x, y, z}` object literals
the source passes around). -/
structure Point where
  x : ℚ
  y : ℚ
  z : ℚ
deriving DecidableEq, Repr

/-- Cylinder axis tag (`'x' | 'y' | 'z'`).  The source's `switch (axis)`
treats any other string as `'z'` via the `default:` case; the tag is
modelled as an exhaustive three-way union. -/
inductive Axis
  | x
  | y
  | z
deriving DecidableEq, Repr

/-- `ExclusionZone`: the `type` string together with its `params` object,
modelled as a tagged union (`sphere`/`cylinder`/`box` are the only types
the source constructs or dispatches on; `contains`/`intersectsLine` return
`false` for any other tag, which the union makes unrepresentable). -/
inductive ExclusionZone
  | sphere (x y z radius : ℚ)
  | cylinder (x y z radius height : ℚ) (axis : Axis)
  | box (x y z width height depth : ℚ)
deriving DecidableEq, Repr

/-- `ExclusionZone.contains`, dispatching to `containsSphere` /
`containsCylinder` / `containsBox`.  `Math.pow(a, 2)` in the cylinder case
is written `a * a`. -/
def ExclusionZone.contains : ExclusionZone → Point → Bool
  | .sphere cx cy cz radius, p =>
      decide ((p.x - cx) * (p.x - cx) + (p.y - cy) * (p.y - cy) + (p.z - cz) * (p.z - cz) ≤
        radius * radius)
  | .cylinder cx cy cz radius height axis, p =>
      let halfHeight := height / 2
      let axialDist :=
        match axis with
        | .x => |p.x - cx|
        | .y => |p.y - cy|
        | .z => |p.z - cz|
      let radialDistSq :=
        match axis with
        | .x => (p.y - cy) * (p.y - cy) + (p.z - cz) * (p.z - cz)
        | .y => (p.x - cx) * (p.x - cx) + (p.z - cz) * (p.z - cz)
        | .z => (p.x - cx) * (p.x - cx) + (p.y - cy) * (p.y - cy)
      decide (axialDist ≤ halfHeight ∧ radialDistSq ≤ radius * radius)
  | .box cx cy cz width height depth, p =>
      let halfWidth := width / 2
      let halfHeight := height / 2
      let halfDepth := depth / 2
      decide (cx - halfWidth ≤ p.x ∧ p.x ≤ cx + halfWidth ∧
        cy - halfHeight ≤ p.y ∧ p.y ≤ cy + halfHeight ∧
        cz - halfDepth ≤ p.z ∧ p.z ≤ cz + halfDepth)

/-- JS arithmetic with `NaN`: `none` stands for `NaN` and propagates. -/
def jadd : Option ℚ → Option ℚ → Option ℚ
  | some a, some b => some (a + b)
  | _, _ => none

/-- `NaN`-propagating subtraction. -/
def jsub : Option ℚ → Option ℚ → Option ℚ
  | some a, some b => some (a - b)
  | _, _ => none

/-- `NaN`-propagating multiplication (no infinities arise in the routines
modelled here, so `0 * NaN = NaN` is the only special case and it is
covered by propagation). -/
def jmul : Option ℚ → Option ℚ → Option ℚ
  | some a, some b => some (a * b)
  | _, _ => none

/-- `NaN`-propagating division.  A zero divisor yields `NaN`; in
`intersectsLineSphere` (the one routine embedded with this arithmetic)
every division whose divisor is zero also has a zero or `NaN` numerator
(`len = 0` forces `dirX = dirY = dirZ = 0`), and JS `0/0` and `NaN/0` are
both `NaN`, so the embedding agrees with the source on all reachable
inputs. -/
def jdiv : Option ℚ → Option ℚ → Option ℚ
  | some a, some b => if b = 0 then none else some (a / b)
  | _, _ => none

/-- JS `<`: any comparison against `NaN` is `false`. -/
def jlt : Option ℚ → Option ℚ → Bool
  | some a, some b => decide (a < b)
  | _, _ => false

/-- JS `<=`: any comparison against `NaN` is `false`. -/
def jle : Option ℚ → Option ℚ → Bool
  | some a, some b => decide (a ≤ b)
  | _, _ => false

/-- Squared length of the segment `p1 → p2` (`lenSq` in
`intersectsLineSphere`). -/
def segLenSq (p1 p2 : Point) : ℚ :=
  (p2.x - p1.x) * (p2.x - p1.x) + (p2.y - p1.y) * (p2.y - p1.y) +
    (p2.z - p1.z) * (p2.z - p1.z)

/-- `ExclusionZone.intersectsLineSphere` for the sphere with center
`(cx, cy, cz)` and the given radius.  `len` stands for
`Math.sqrt(lenSq)` and is constrained in theorems by `len ≥ 0` and
`len * len = segLenSq p1 p2`.  The unguarded divisions by `len` and the
comparisons are carried out in `NaN`-aware arithmetic, mirroring the
source exactly: when `len = 0` the normalized direction is `0/0 = NaN`,
which propagates to `t` and to the final distance test, and every `NaN`
comparison is `false`. -/
def intersectsLineSphere (cx cy cz radius : ℚ) (p1 p2 : Point) (len : ℚ) : Bool :=
  let dx := cx - p1.x
  let dy := cy - p1.y
  let dz := cz - p1.z
  let dirX := p2.x - p1.x
  let dirY := p2.y - p1.y
  let dirZ := p2.z - p1.z
  let normX := jdiv (some dirX) (some len)
  let normY := jdiv (some dirY) (some len)
  let normZ := jdiv (some dirZ) (some len)
  let dot := jadd (jadd (jmul (some dx) normX) (jmul (some dy) normY)) (jmul (some dz) normZ)
  let closestX := jadd (some p1.x) (jmul normX dot)
  let closestY := jadd (some p1.y) (jmul normY dot)
  let closestZ := jadd (some p1.z) (jmul normZ dot)
  let t := jdiv dot (some len)
  if jlt t (some 0) || jlt (some 1) t then false
  else
    let distX := jsub closestX (some cx)
    let distY := jsub closestY (some cy)
    let distZ := jsub closestZ (some cz)
    let dSq := jadd (jadd (jmul distX distX) (jmul distY distY)) (jmul distZ distZ)
    jle dSq (some (radius * radius))

/-- `ExclusionZone.intersectsLineCylinder`.  `sqrtDisc` stands for
`Math.sqrt(discriminant)` (only consumed on the `discriminant ≥ 0` branch,
where it is a plain number).  When `a = 0` (segment parallel to the axis)
the JS divisions produce `±Infinity`/`NaN`; the rational convention
`x / 0 = 0` is applied here — claim C5 compares this routine against
`ShapeManager.lineIntersectsCylinder` below, which is embedded with the
exact same convention, so the comparison is unaffected. -/
def intersectsLineCylinder (cx cy cz radius height : ℚ) (axis : Axis) (p1 p2 : Point)
    (sqrtDisc : ℚ) : Bool :=
  let halfHeight := height / 2
  let l1x := p1.x - cx
  let l1y := p1.y - cy
  let l1z := p1.z - cz
  let l2x := p2.x - cx
  let l2y := p2.y - cy
  let l2z := p2.z - cz
  let dx := l2x - l1x
  let dy := l2y - l1y
  let dz := l2z - l1z
  let a :=
    match axis with
    | .x => dy * dy + dz * dz
    | .y => dx * dx + dz * dz
    | .z => dx * dx + dy * dy
  let b :=
    match axis with
    | .x => 2 * (l1y * dy + l1z * dz)
    | .y => 2 * (l1x * dx + l1z * dz)
    | .z => 2 * (l1x * dx + l1y * dy)
  let c :=
    match axis with
    | .x => l1y * l1y + l1z * l1z - radius * radius
    | .y => l1x * l1x + l1z * l1z - radius * radius
    | .z => l1x * l1x + l1y * l1y - radius * radius
  let axisValue1 :=
    match axis with
    | .x => l1x
    | .y => l1y
    | .z => l1z
  let axisValue2 :=
    match axis with
    | .x => l2x
    | .y => l2y
    | .z => l2z
  let discriminant := b * b - 4 * a * c
  if discriminant < 0 then false
  else
    let t1 := (-b + sqrtDisc) / (2 * a)
    let t2 := (-b - sqrtDisc) / (2 * a)
    if (t1 < 0 ∨ t1 > 1) ∧ (t2 < 0 ∨ t2 > 1) then false
    else
      (if 0 ≤ t1 ∧ t1 ≤ 1 then
        let axisPos := axisValue1 + t1 * (axisValue2 - axisValue1)
        decide (-halfHeight ≤ axisPos ∧ axisPos ≤ halfHeight)
      else false) ||
      (if 0 ≤ t2 ∧ t2 ≤ 1 then
        let axisPos := axisValue1 + t2 * (axisValue2 - axisValue1)
        decide (-halfHeight ≤ axisPos ∧ axisPos ≤ halfHeight)
      else false)

/-- `ShapeManager.lineIntersectsCylinder` (`ShapeManager.esm.js`), the
shape generator's own copy of the line–cylinder test, taking the segment
endpoints and cylinder parameters as eleven scalars.  Embedded with the
same conventions as `intersectsLineCylinder` (shared `sqrtDisc` argument
for `Math.sqrt(discriminant)`, rational `x / 0 = 0`). -/
def lineIntersectsCylinder (x1 y1 z1 x2 y2 z2 cx cy cz r h : ℚ) (axis : Axis)
    (sqrtDisc : ℚ) : Bool :=
  let p1x := x1 - cx
  let p1y := y1 - cy
  let p1z := z1 - cz
  let p2x := x2 - cx
  let p2y := y2 - cy
  let p2z := z2 - cz
  let dx := p2x - p1x
  let dy := p2y - p1y
  let dz := p2z - p1z
  let a :=
    match axis with
    | .x => dy * dy + dz * dz
    | .y => dx * dx + dz * dz
    | .z => dx * dx + dy * dy
  let b :=
    match axis with
    | .x => 2 * (p1y * dy + p1z * dz)
    | .y => 2 * (p1x * dx + p1z * dz)
    | .z => 2 * (p1x * dx + p1y * dy)
  let c :=
    match axis with
    | .x => p1y * p1y + p1z * p1z - r * r
    | .y => p1x * p1x + p1z * p1z - r * r
    | .z => p1x * p1x + p1y * p1y - r * r
  let axisValue1 :=
    match axis with
    | .x => p1x
    | .y => p1y
    | .z => p1z
  let axisValue2 :=
    match axis with
    | .x => p2x
    | .y => p2y
    | .z => p2z
  let discriminant := b * b - 4 * a * c
  if discriminant < 0 then false
  else
    let t1 := (-b + sqrtDisc) / (2 * a)
    let t2 := (-b - sqrtDisc) / (2 * a)
    if (t1 < 0 ∨ t1 > 1) ∧ (t2 < 0 ∨ t2 > 1) then false
    else
      let halfHeight := h / 2
      (if 0 ≤ t1 ∧ t1 ≤ 1 then
        let axisPos := axisValue1 + t1 * (axisValue2 - axisValue1)
        decide (-halfHeight ≤ axisPos ∧ axisPos ≤ halfHeight)
      else false) ||
      (if 0 ≤ t2 ∧ t2 ≤ 1 then
        let axisPos := axisValue1 + t2 * (axisValue2 - axisValue1)
        decide (-halfHeight ≤ axisPos ∧ axisPos ≤ halfHeight)
      else false)

/-- Rationals extended with `±Infinity`, for the explicit
`dir === 0 ? ±Infinity : …` slab bounds of `intersectsLineBox`.  `⊥` is
`-Infinity` and the inner `⊤` is `+Infinity`; finite values coerce from
`ℚ`.  No `NaN` arises in that routine: every division is guarded by the
`dir === 0` test. -/
abbrev QInf := WithBot (WithTop ℚ)

/-- Coerce a rational into `QInf`. -/
def QInf.ofQ (q : ℚ) : QInf := ((q : WithTop ℚ) : QInf)

/-- `+Infinity` in `QInf`. -/
def QInf.posInf : QInf := ((⊤ : WithTop ℚ) : QInf)

/-- `-Infinity` in `QInf`. -/
def QInf.negInf : QInf := (⊥ : QInf)

/-- The combined slab parameters `(tMin, tMax)` of
`ExclusionZone.intersectsLineBox`: per-axis parametrized intersections
with the two bounding planes (a zero direction component giving
`±Infinity` bounds), then the largest per-axis minimum and the smallest
per-axis maximum.  `Math.max`/`Math.min` over three arguments is folded
left-associatively. -/
def boxSlab (cx cy cz width height depth : ℚ) (p1 p2 : Point) : QInf × QInf :=
  let halfWidth := width / 2
  let halfHeight := height / 2
  let halfDepth := depth / 2
  let minX := cx - halfWidth
  let maxX := cx + halfWidth
  let minY := cy - halfHeight
  let maxY := cy + halfHeight
  let minZ := cz - halfDepth
  let maxZ := cz + halfDepth
  let dirX := p2.x - p1.x
  let dirY := p2.y - p1.y
  let dirZ := p2.z - p1.z
  let txMin := if dirX = 0 then QInf.negInf else QInf.ofQ ((minX - p1.x) / dirX)
  let txMax := if dirX = 0 then QInf.posInf else QInf.ofQ ((maxX - p1.x) / dirX)
  let tyMin := if dirY = 0 then QInf.negInf else QInf.ofQ ((minY - p1.y) / dirY)
  let tyMax := if dirY = 0 then QInf.posInf else QInf.ofQ ((maxY - p1.y) / dirY)
  let tzMin := if dirZ = 0 then QInf.negInf else QInf.ofQ ((minZ - p1.z) / dirZ)
  let tzMax := if dirZ = 0 then QInf.posInf else QInf.ofQ ((maxZ - p1.z) / dirZ)
  let tMin := max (max (min txMin txMax) (min tyMin tyMax)) (min tzMin tzMax)
  let tMax := min (min (max txMin txMax) (max tyMin tyMax)) (max tzMin tzMax)
  (tMin, tMax)

/-- `ExclusionZone.intersectsLineBox`: the slab method.  Reports no hit
when `tMax < 0` or `tMin > tMax`, otherwise a hit iff `tMin ≤ 1` and
`tMax ≥ 0`. -/
def intersectsLineBox (cx cy cz width height depth : ℚ) (p1 p2 : Point) : Bool :=
  let s := boxSlab cx cy cz width height depth p1 p2
  let tMin := s.1
  let tMax := s.2
  if tMax < QInf.ofQ 0 ∨ tMin > tMax then false
  else decide (tMin ≤ QInf.ofQ 1 ∧ QInf.ofQ 0 ≤ tMax)

/-- C4 counterexample: for the unit sphere at the origin and the surface
point `(1,0,0)` (squared distance from the center exactly `radius²`),
`contains` returns `true` but the zero-length segment test
`intersectsLine(P, P)` returns `false` (its `len` is
`Math.sqrt(segLenSq P P) = Math.sqrt 0 = 0`, the `0/0` normalization is
`NaN`, and the final `NaN ≤ radius²` comparison is `false`), refuting the
claim that the zero-length test also intersects. -/
theorem C4_surface_counterexample :
    ((1:ℚ) - 0) * ((1:ℚ) - 0) + ((0:ℚ) - 0) * ((0:ℚ) - 0) + ((0:ℚ) - 0) * ((0:ℚ) - 0) =
      (1:ℚ) * 1 ∧
    ExclusionZone.contains (.sphere 0 0 0 1) ⟨1, 0, 0⟩ = true ∧
    (0:ℚ) * 0 = segLenSq ⟨1, 0, 0⟩ ⟨1, 0, 0⟩ ∧
    intersectsLineSphere 0 0 0 1 ⟨1, 0, 0⟩ ⟨1, 0, 0⟩ 0 = false := by
  refine ⟨by norm_num, ?_, by norm_num [segLenSq], ?_⟩
  · simp [ExclusionZone.contains]
  · simp [intersectsLineSphere, jdiv, jadd, jmul, jsub, jlt, jle, sub_self]

/-- C4 (amended): a point exactly on a sphere zone's surface is reported
as contained, but the zero-length segment test at that point (indeed at
any point) returns `false`: with `p1 = p2` the direction is zero, `len`
(`Math.sqrt` of the zero squared length) is `0`, the `0/0` normalization
produces `NaN`, and `NaN` poisons the final distance comparison to
`false`. -/
theorem C4_surface_contains_zero_segment (cx cy cz radius : ℚ) (p : Point)
    (hsurface : (p.x - cx) * (p.x - cx) + (p.y - cy) * (p.y - cy) + (p.z - cz) * (p.z - cz) =
      radius * radius) :
    ExclusionZone.contains (.sphere cx cy cz radius) p = true ∧
    intersectsLineSphere cx cy cz radius p p 0 = false := by
  constructor
  · simp [ExclusionZone.contains, hsurface]
  · simp [intersectsLineSphere, jdiv, jadd, jmul, jsub, jlt, jle, sub_self]

theorem C4_surface_contains_zero_segment_witness :
    (((1:ℚ) - 0) * ((1:ℚ) - 0) + ((0:ℚ) - 0) * ((0:ℚ) - 0) + ((0:ℚ) - 0) * ((0:ℚ) - 0) =
      (1:ℚ) * 1) ∧
    (ExclusionZone.contains (.sphere 0 0 0 1) ⟨1, 0, 0⟩ = true ∧
      intersectsLineSphere 0 0 0 1 ⟨1, 0, 0⟩ ⟨1, 0, 0⟩ 0 = false) :=
  ⟨by norm_num, C4_surface_contains_zero_segment 0 0 0 1 ⟨1, 0, 0⟩ (by norm_num)⟩

/-- C5: the two line–cylinder intersection routines — the exclusion zone's
`intersectsLineCylinder` and the shape generator's
`lineIntersectsCylinder` — agree on every pair of segment endpoints, every
cylinder parameter set, and every value of the shared `Math.sqrt` input:
despite the duplicated code, there is no drift between them. -/
theorem C5_cylinder_routines_agree (x1 y1 z1 x2 y2 z2 cx cy cz r h : ℚ) (axis : Axis)
    (sqrtDisc : ℚ) :
    intersectsLineCylinder cx cy cz r h axis ⟨x1, y1, z1⟩ ⟨x2, y2, z2⟩ sqrtDisc =
      lineIntersectsCylinder x1 y1 z1 x2 y2 z2 cx cy cz r h axis sqrtDisc := by
  cases axis <;> rfl

/-- C9: the box segment test returns `true` exactly when the combined slab
exit `tMax` is at least `max 0 tMin` and the combined entry `tMin` is at
most `1`, with a zero direction component giving `∓Infinity` per-axis
bounds. -/
theorem C9_box_slab_characterization (cx cy cz width height depth : ℚ) (p1 p2 : Point) :
    intersectsLineBox cx cy cz width height depth p1 p2 = true ↔
      max (QInf.ofQ 0) (boxSlab cx cy cz width height depth p1 p2).1 ≤
          (boxSlab cx cy cz width height depth p1 p2).2 ∧
        (boxSlab cx cy cz width height depth p1 p2).1 ≤ QInf.ofQ 1 := by
  unfold intersectsLineBox
  set s := boxSlab cx cy cz width height depth p1 p2 with hs
  by_cases hcond : s.2 < QInf.ofQ 0 ∨ s.1 > s.2
  · rw [if_pos hcond]
    simp only [Bool.false_eq_true, false_iff, not_and, max_le_iff, and_imp]
    intro h0 hmm _
    rcases hcond with hlt | hgt
    · exact absurd h0 (not_le.mpr hlt)
    · exact absurd hmm (not_le.mpr hgt)
  · rw [if_neg hcond]
    push_neg at hcond
    simp only [decide_eq_true_eq, max_le_iff]
    constructor
    · rintro ⟨h1, h0⟩
      exact ⟨⟨h0, hcond.2⟩, h1⟩
    · rintro ⟨⟨h0, _⟩, h1⟩
      exact ⟨h1, h0⟩

/-- The configuration fields consumed by `Particle.update`,
`Particle.checkBounds` and `Particle.resetParticle`. -/
structure Config where
  BOUND : ℚ
  PARTICLE_SPEED : ℚ
deriving DecidableEq, Repr

/-- The `Math.random()` draws consumed on `checkBounds`'s reset path, in
call order: `axisDraw` models `Math.floor(Math.random() * 3)` (0, 1 or 2),
`signDraw` the draw compared against `0.5`, `rv1`–`rv3` the three velocity
draws of `resetParticle`, and `rp1`, `rp2` the two fresh position draws
for the non-chosen axes; each raw draw lies in `[0, 1)`. -/
structure RandomDraws where
  axisDraw : Fin 3
  signDraw : ℚ
  rv1 : ℚ
  rv2 : ℚ
  rv3 : ℚ
  rp1 : ℚ
  rp2 : ℚ
deriving DecidableEq, Repr

/-- `Particle.resetParticle`: fresh random velocities, `baseVy` updated. -/
def Particle.resetParticle (p : Particle) (cfg : Config) (rd : RandomDraws) : Particle :=
  let vx := (rd.rv1 * 2 - 1) * cfg.PARTICLE_SPEED
  let vy := (rd.rv2 * 2 - 1) * cfg.PARTICLE_SPEED
  let vz := (rd.rv3 * 2 - 1) * cfg.PARTICLE_SPEED
  { p with vx := vx, vy := vy, vz := vz, baseVy := vy }

/-- `Particle.checkBounds`: if any coordinate magnitude exceeds `BOUND`,
re-randomize velocities, place the particle on the face of a randomly
chosen axis with random positions on the other two axes, and force the
chosen axis's velocity inward. -/
def Particle.checkBounds (p : Particle) (cfg : Config) (rd : RandomDraws) : Particle :=
  if |p.x| > cfg.BOUND ∨ |p.y| > cfg.BOUND ∨ |p.z| > cfg.BOUND then
    let sign : ℚ := if rd.signDraw < 1/2 then -1 else 1
    let q := p.resetParticle cfg rd
    if rd.axisDraw = 0 then
      { q with x := sign * cfg.BOUND,
               y := (rd.rp1 * 2 - 1) * cfg.BOUND,
               z := (rd.rp2 * 2 - 1) * cfg.BOUND,
               vx := -sign * |q.vx| }
    else if rd.axisDraw = 1 then
      { q with x := (rd.rp1 * 2 - 1) * cfg.BOUND,
               y := sign * cfg.BOUND,
               z := (rd.rp2 * 2 - 1) * cfg.BOUND,
               vy := -sign * |q.vy|,
               baseVy := -sign * |q.vy| }
    else
      { q with x := (rd.rp1 * 2 - 1) * cfg.BOUND,
               y := (rd.rp2 * 2 - 1) * cfg.BOUND,
               z := sign * cfg.BOUND,
               vz := -sign * |q.vz| }
  else p

/-- The pre-normalization bounce normal of `Particle.bounceOffExclusionZone`,
by zone type: sphere — center-to-particle direction; cylinder — the
component orthogonal to the axis; box — the unit normal of the nearest of
the six faces, chosen by the source's `if`/`else if` chain over the face
distances (`Math.min` over six arguments folded left-associatively). -/
def bounceNormal (p : Particle) : ExclusionZone → ℚ × ℚ × ℚ
  | .sphere cx cy cz _ => (p.x - cx, p.y - cy, p.z - cz)
  | .cylinder cx cy cz _ _ axis =>
      match axis with
      | .x => (0, p.y - cy, p.z - cz)
      | .y => (p.x - cx, 0, p.z - cz)
      | .z => (p.x - cx, p.y - cy, 0)
  | .box cx cy cz width height depth =>
      let halfWidth := width / 2
      let halfHeight := height / 2
      let halfDepth := depth / 2
      let distToRight := |(cx + halfWidth) - p.x|
      let distToLeft := |p.x - (cx - halfWidth)|
      let distToTop := |(cy + halfHeight) - p.y|
      let distToBottom := |p.y - (cy - halfHeight)|
      let distToFront := |(cz + halfDepth) - p.z|
      let distToBack := |p.z - (cz - halfDepth)|
      let minDist := min (min (min (min (min distToRight distToLeft) distToTop) distToBottom)
        distToFront) distToBack
      if minDist = distToRight then (1, 0, 0)
      else if minDist = distToLeft then (-1, 0, 0)
      else if minDist = distToTop then (0, 1, 0)
      else if minDist = distToBottom then (0, -1, 0)
      else if minDist = distToFront then (0, 0, 1)
      else if minDist = distToBack then (0, 0, -1)
      else (0, 0, 0)

/-- Squared length of the bounce normal, the quantity whose `Math.sqrt`
the source assigns to `length`. -/
def bounceNormalSq (p : Particle) (zone : ExclusionZone) : ℚ :=
  (bounceNormal p zone).1 * (bounceNormal p zone).1 +
    (bounceNormal p zone).2.1 * (bounceNormal p zone).2.1 +
    (bounceNormal p zone).2.2 * (bounceNormal p zone).2.2

/-- `Particle.bounceOffExclusionZone`: normalize the zone normal (when its
length is positive), reflect the velocity `v' = v - 2 (v·n) n`, and set
the position to the previous position plus `0.1` (exactly `1/10` here)
times the new velocity.  `len` stands for `Math.sqrt (bounceNormalSq p
zone)` and is constrained in theorems by `0 ≤ len` and
`len * len = bounceNormalSq p zone`. -/
def Particle.bounceOffExclusionZone (p : Particle) (zone : ExclusionZone) (len : ℚ) : Particle :=
  let n := bounceNormal p zone
  let normalX := if len > 0 then n.1 / len else n.1
  let normalY := if len > 0 then n.2.1 / len else n.2.1
  let normalZ := if len > 0 then n.2.2 / len else n.2.2
  let dotProduct := p.vx * normalX + p.vy * normalY + p.vz * normalZ
  let vx := p.vx - 2 * dotProduct * normalX
  let vy := p.vy - 2 * dotProduct * normalY
  let vz := p.vz - 2 * dotProduct * normalZ
  { p with vx := vx, vy := vy, vz := vz,
           x := p.prevX + vx * (1/10),
           y := p.prevY + vy * (1/10),
           z := p.prevZ + vz * (1/10) }

/-- `Particle.wouldEnterExclusionZone`: entering means the new position is
inside while the current one is not (the "already inside" exemption). -/
def Particle.wouldEnterExclusionZone (p : Particle) (newX newY newZ : ℚ)
    (zone : ExclusionZone) : Bool :=
  if zone.contains ⟨p.x, p.y, p.z⟩ then false
  else zone.contains ⟨newX, newY, newZ⟩

/-- `Particle.update` for one tick.  `zone` is `some z` exactly when the
source's `currentShape && currentShape.hasExclusionZone` is truthy (with
`z` the active exclusion zone); `len` is the `Math.sqrt` consumed by a
bounce, `rd` the random draws consumed by `checkBounds`. -/
def Particle.update (p : Particle) (globalVelocityY : ℚ) (cfg : Config)
    (zone : Option ExclusionZone) (len : ℚ) (rd : RandomDraws) : Particle :=
  if p.inTransition then p
  else
    let p := { p with prevX := p.x, prevY := p.y, prevZ := p.z }
    let newX := p.x + p.vx
    let newY := p.y + p.vy + globalVelocityY
    let newZ := p.z + p.vz
    match zone with
    | some z =>
        if p.wouldEnterExclusionZone newX newY newZ z then
          p.bounceOffExclusionZone z len
        else
          ({ p with x := newX, y := newY, z := newZ }).checkBounds cfg rd
    | none => ({ p with x := newX, y := newY, z := newZ }).checkBounds cfg rd

/-- Whether the tick step for `p` ends in an exclusion-zone bounce (the
early-return branch of `Particle.update`). -/
def Particle.updateEndsInBounce (p : Particle) (globalVelocityY : ℚ)
    (zone : Option ExclusionZone) : Bool :=
  if p.inTransition then false
  else
    match zone with
    | some z =>
        p.wouldEnterExclusionZone (p.x + p.vx) (p.y + p.vy + globalVelocityY) (p.z + p.vz) z
    | none => false

theorem abs_scaled_draw_le (r B : ℚ) (hB : 0 ≤ B) (h0 : 0 ≤ r) (h1 : r < 1) :
    |(r * 2 - 1) * B| ≤ B := by
  rw [abs_mul, abs_of_nonneg hB]
  have h : |r * 2 - 1| ≤ 1 := abs_le.mpr (by constructor <;> linarith)
  nlinarith [abs_nonneg (r * 2 - 1)]

theorem abs_sign_mul_bound (c B : ℚ) (hB : 0 ≤ B) :
    |(if c < 1/2 then (-1:ℚ) else 1) * B| = B := by
  by_cases h : c < 1/2
  · rw [if_pos h]
    simp [abs_of_nonneg hB]
  · rw [if_neg h]
    simp [abs_of_nonneg hB]

/-- After `checkBounds`, every coordinate magnitude is at most `BOUND`
(either the particle already was in bounds, or it was recycled onto a
boundary face with fresh in-range positions on the other two axes). -/
theorem Particle.checkBounds_abs_le (p : Particle) (cfg : Config) (rd : RandomDraws)
    (hB : 0 ≤ cfg.BOUND) (hp1 : 0 ≤ rd.rp1) (hp1' : rd.rp1 < 1)
    (hp2 : 0 ≤ rd.rp2) (hp2' : rd.rp2 < 1) :
    |(p.checkBounds cfg rd).x| ≤ cfg.BOUND ∧ |(p.checkBounds cfg rd).y| ≤ cfg.BOUND ∧
      |(p.checkBounds cfg rd).z| ≤ cfg.BOUND := by
  unfold Particle.checkBounds
  by_cases hout : |p.x| > cfg.BOUND ∨ |p.y| > cfg.BOUND ∨ |p.z| > cfg.BOUND
  · rw [if_pos hout]
    have hs := abs_sign_mul_bound rd.signDraw cfg.BOUND hB
    have hr1 := abs_scaled_draw_le rd.rp1 cfg.BOUND hB hp1 hp1'
    have hr2 := abs_scaled_draw_le rd.rp2 cfg.BOUND hB hp2 hp2'
    by_cases h0 : rd.axisDraw = 0
    · rw [if_pos h0]
      exact ⟨le_of_eq hs, hr1, hr2⟩
    · rw [if_neg h0]
      by_cases h1 : rd.axisDraw = 1
      · rw [if_pos h1]
        exact ⟨hr1, le_of_eq hs, hr2⟩
      · rw [if_neg h1]
        exact ⟨hr1, hr2, le_of_eq hs⟩
  · rw [if_neg hout]
    push_neg at hout
    exact hout

/-- On the non-transition, non-bounce path, `update` commits the candidate
position and then runs `checkBounds`. -/
theorem Particle.update_eq_checkBounds (p : Particle) (gvy : ℚ) (cfg : Config)
    (zone : Option ExclusionZone) (len : ℚ) (rd : RandomDraws)
    (htr : p.inTransition = false)
    (hnb : p.updateEndsInBounce gvy zone = false) :
    p.update gvy cfg zone len rd =
      Particle.checkBounds
        { p with prevX := p.x, prevY := p.y, prevZ := p.z,
                 x := p.x + p.vx, y := p.y + p.vy + gvy, z := p.z + p.vz } cfg rd := by
  have hnb2 : ∀ z, zone = some z →
      p.wouldEnterExclusionZone (p.x + p.vx) (p.y + p.vy + gvy) (p.z + p.vz) z = false := by
    intro z hz
    subst hz
    have h := hnb
    unfold Particle.updateEndsInBounce at h
    rw [if_neg (by simp [htr])] at h
    exact h
  unfold Particle.update
  rw [if_neg (by simp [htr])]
  cases zone with
  | none => rfl
  | some z =>
    dsimp only
    split
    next hcontra =>
      have hthis : p.wouldEnterExclusionZone (p.x + p.vx) (p.y + p.vy + gvy)
          (p.z + p.vz) z = true := hcontra
      rw [hnb2 z rfl] at hthis
      exact absurd hthis (by simp)
    next => rfl

/-- C2 (amended): the boundary invariant holds for the tick paths that
reach `checkBounds` — after a step that is not in transition and does not
end in an exclusion-zone bounce, every coordinate magnitude is at most
`BOUND`; an in-transition step leaves the particle entirely unchanged (so
the bound is preserved when it already held).  The original claim's
remaining case — a step ending in a bounce — is refuted by
`C2_bounce_escapes_bound_counterexample`: the bounce path returns before
`checkBounds` runs and can place a coordinate beyond `BOUND`. -/
theorem C2_boundary_invariant_amended (p : Particle) (gvy : ℚ) (cfg : Config)
    (zone : Option ExclusionZone) (len : ℚ) (rd : RandomDraws)
    (hB : 0 < cfg.BOUND) (hp1 : 0 ≤ rd.rp1) (hp1' : rd.rp1 < 1)
    (hp2 : 0 ≤ rd.rp2) (hp2' : rd.rp2 < 1) :
    (p.inTransition = true → p.update gvy cfg zone len rd = p) ∧
    (p.inTransition = false → p.updateEndsInBounce gvy zone = false →
      |(p.update gvy cfg zone len rd).x| ≤ cfg.BOUND ∧
        |(p.update gvy cfg zone len rd).y| ≤ cfg.BOUND ∧
        |(p.update gvy cfg zone len rd).z| ≤ cfg.BOUND) := by
  constructor
  · intro htr
    unfold Particle.update
    rw [if_pos htr]
  · intro htr hnb
    rw [Particle.update_eq_checkBounds p gvy cfg zone len rd htr hnb]
    exact Particle.checkBounds_abs_le _ cfg rd (le_of_lt hB) hp1 hp1' hp2 hp2'

/-- Concrete input for the C2 counterexample: a free-roaming particle at
`(99/100, 0, 0)` with velocity `(1/5, 3/5, 0)` in a world with
`BOUND = 1`. -/
def bounceDemoParticle : Particle :=
  { mkTestParticle 0 (99/100) 0 0 with vx := 1/5, vy := 3/5 }

/-- Sphere exclusion zone centered at `(99/100, 1, 0)` with radius `1/2`,
directly above `bounceDemoParticle`. -/
def bounceDemoZone : ExclusionZone := .sphere (99/100) 1 0 (1/2)

/-- Random draws (never consumed on the bounce path). -/
def zeroDraws : RandomDraws := ⟨0, 0, 0, 0, 0, 0, 0⟩

/-- C2 counterexample: with `BOUND = 1`, the tick for `bounceDemoParticle`
ends in a sphere bounce whose committed position has `x = 101/100 > 1` —
the bounce path returns before `checkBounds`, so the boundary invariant
fails after this tick.  The first conjuncts check the setting (positive
bound, particle not in transition) and pin the `len` argument to the true
square root of the bounce normal's squared length (the normal is
`(0, -1, 0)`, so `len = 1`). -/
theorem C2_bounce_escapes_bound_counterexample :
    (0:ℚ) < 1 ∧
    bounceDemoParticle.inTransition = false ∧
    (0:ℚ) ≤ 1 ∧ (1:ℚ) * 1 = bounceNormalSq bounceDemoParticle bounceDemoZone ∧
    |(bounceDemoParticle.update 0 ⟨1, 1⟩ (some bounceDemoZone) 1 zeroDraws).x| > 1 := by
  refine ⟨by norm_num, rfl, by norm_num, ?_, ?_⟩
  · norm_num [bounceNormalSq, bounceNormal, bounceDemoParticle, bounceDemoZone, mkTestParticle]
  · have : (bounceDemoParticle.update 0 ⟨1, 1⟩ (some bounceDemoZone) 1 zeroDraws).x =
        101/100 := by
      norm_num [Particle.update, Particle.wouldEnterExclusionZone, ExclusionZone.contains,
        Particle.bounceOffExclusionZone, bounceNormal, bounceDemoParticle, bounceDemoZone,
        mkTestParticle, zeroDraws]
    rw [this, abs_of_nonneg (by norm_num)]
    norm_num

theorem C2_boundary_invariant_amended_witness :
    (0:ℚ) < (Config.mk 1 1).BOUND ∧
    (0:ℚ) ≤ zeroDraws.rp1 ∧ zeroDraws.rp1 < 1 ∧
    (0:ℚ) ≤ zeroDraws.rp2 ∧ zeroDraws.rp2 < 1 ∧
    (((mkTestParticle 0 0 0 0).inTransition = true →
        Particle.update (mkTestParticle 0 0 0 0) 0 (Config.mk 1 1) none 0 zeroDraws =
          mkTestParticle 0 0 0 0) ∧
      ((mkTestParticle 0 0 0 0).inTransition = false →
        (mkTestParticle 0 0 0 0).updateEndsInBounce 0 none = false →
        |(Particle.update (mkTestParticle 0 0 0 0) 0 (Config.mk 1 1) none 0 zeroDraws).x| ≤
            (Config.mk 1 1).BOUND ∧
          |(Particle.update (mkTestParticle 0 0 0 0) 0 (Config.mk 1 1) none 0 zeroDraws).y| ≤
            (Config.mk 1 1).BOUND ∧
          |(Particle.update (mkTestParticle 0 0 0 0) 0 (Config.mk 1 1) none 0 zeroDraws).z| ≤
            (Config.mk 1 1).BOUND)) :=
  ⟨by norm_num, by norm_num [zeroDraws], by norm_num [zeroDraws], by norm_num [zeroDraws],
    by norm_num [zeroDraws],
    C2_boundary_invariant_amended (mkTestParticle 0 0 0 0) 0 (Config.mk 1 1) none 0 zeroDraws
      (by norm_num) (by norm_num [zeroDraws]) (by norm_num [zeroDraws])
      (by norm_num [zeroDraws]) (by norm_num [zeroDraws])⟩

/-- C6: when a sphere-zone bounce occurs with the particle away from the
zone's center (`len > 0` with `len` the true length of the outward
normal), the reflected velocity `v' = v - 2 (v·n̂) n̂` has the same squared
magnitude as the pre-collision velocity, its component along the unit
normal `n̂` is the negation of the pre-collision component, and the
position becomes the previous tick's position plus `0.1` times the new
velocity. -/
theorem C6_sphere_bounce_reflection (p : Particle) (cx cy cz radius len : ℚ)
    (hlen : 0 < len) (hsq : len * len = bounceNormalSq p (.sphere cx cy cz radius)) :
    (let q := p.bounceOffExclusionZone (.sphere cx cy cz radius) len
     let nx := (p.x - cx) / len
     let ny := (p.y - cy) / len
     let nz := (p.z - cz) / len
     (q.vx * q.vx + q.vy * q.vy + q.vz * q.vz = p.vx * p.vx + p.vy * p.vy + p.vz * p.vz) ∧
       (q.vx * nx + q.vy * ny + q.vz * nz = -(p.vx * nx + p.vy * ny + p.vz * nz)) ∧
       q.x = p.prevX + q.vx * (1/10) ∧ q.y = p.prevY + q.vy * (1/10) ∧
       q.z = p.prevZ + q.vz * (1/10)) := by
  have ha : (p.x - cx) * (p.x - cx) + (p.y - cy) * (p.y - cy) + (p.z - cz) * (p.z - cz)
      = len * len := by
    rw [hsq]
    simp [bounceNormalSq, bounceNormal]
  have hlen' : len ≠ 0 := ne_of_gt hlen
  have hunit : ((p.x - cx) / len) * ((p.x - cx) / len) +
      ((p.y - cy) / len) * ((p.y - cy) / len) +
      ((p.z - cz) / len) * ((p.z - cz) / len) = 1 := by
    field_simp
    linear_combination ha
  simp only [Particle.bounceOffExclusionZone, bounceNormal, if_pos hlen]
  refine ⟨?_, ?_, trivial, trivial, trivial⟩
  · linear_combination (4 * (p.vx * ((p.x - cx) / len) + p.vy * ((p.y - cy) / len) +
      p.vz * ((p.z - cz) / len)) ^ 2) * hunit
  · linear_combination (-2 * (p.vx * ((p.x - cx) / len) + p.vy * ((p.y - cy) / len) +
      p.vz * ((p.z - cz) / len))) * hunit

theorem C6_sphere_bounce_reflection_witness :
    (0:ℚ) < 1 ∧
    (1:ℚ) * 1 =
      bounceNormalSq { mkTestParticle 0 0 1 0 with vx := 3, vy := 4 } (.sphere 0 0 0 1) ∧
    (let p : Particle := { mkTestParticle 0 0 1 0 with vx := 3, vy := 4 }
     let q := p.bounceOffExclusionZone (.sphere 0 0 0 1) 1
     let nx := (p.x - 0) / 1
     let ny := (p.y - 0) / 1
     let nz := (p.z - 0) / 1
     (q.vx * q.vx + q.vy * q.vy + q.vz * q.vz = p.vx * p.vx + p.vy * p.vy + p.vz * p.vz) ∧
       (q.vx * nx + q.vy * ny + q.vz * nz = -(p.vx * nx + p.vy * ny + p.vz * nz)) ∧
       q.x = p.prevX + q.vx * (1/10) ∧ q.y = p.prevY + q.vy * (1/10) ∧
       q.z = p.prevZ + q.vz * (1/10)) :=
  ⟨by norm_num,
    by norm_num [bounceNormalSq, bounceNormal, mkTestParticle],
    C6_sphere_bounce_reflection { mkTestParticle 0 0 1 0 with vx := 3, vy := 4 } 0 0 0 1 1
      (by norm_num) (by norm_num [bounceNormalSq, bounceNormal, mkTestParticle])⟩

/-- `Particle.setTarget`: store the target, capture the origin, and enter
the transitioning state. -/
def Particle.setTarget (p : Particle) (x y z : ℚ) : Particle :=
  { p with targetX := x, targetY := y, targetZ := z,
           originalX := p.x, originalY := p.y, originalZ := p.z,
           inTransition := true }

/-- `Particle.updateTransition`: no-op unless `inTransition`; interpolate
`original + (target - original) * eased(progress)`; on `progress ≥ 1`,
inherit a velocity in the direction of the last frame's positional delta
scaled to the current speed when that delta is nonzero, commit the origin,
and leave the transitioning state.  `sqrtFn` stands for `Math.sqrt` (used
for the delta length and the current speed); every theorem below holds for
an arbitrary `sqrtFn`, in particular for the true square root. -/
def Particle.updateTransition (p : Particle) (progress : ℚ) (easing : ℚ → ℚ)
    (sqrtFn : ℚ → ℚ) : Particle :=
  if p.inTransition = false then p
  else
    let eased := easing progress
    let x := p.originalX + (p.targetX - p.originalX) * eased
    let y := p.originalY + (p.targetY - p.originalY) * eased
    let z := p.originalZ + (p.targetZ - p.originalZ) * eased
    if progress ≥ 1 then
      let dx := x - p.x
      let dy := y - p.y
      let dz := z - p.z
      let length := sqrtFn (dx * dx + dy * dy + dz * dz)
      let q : Particle := { p with x := x, y := y, z := z }
      let q :=
        if length > 0 then
          let currentSpeed := sqrtFn (p.vx * p.vx + p.vy * p.vy + p.vz * p.vz)
          { q with vx := dx / length * currentSpeed,
                   vy := dy / length * currentSpeed,
                   vz := dz / length * currentSpeed,
                   baseVy := dy / length * currentSpeed }
        else q
      { q with originalX := x, originalY := y, originalZ := z, inTransition := false }
    else { p with x := x, y := y, z := z }

/-- The `AnimationController` transition state: the fields consumed by
`updateTransition`, with the easing function selected at `startTransition`
and a flag recording whether an `onComplete` callback was supplied. -/
structure AnimState where
  isTransitioning : Bool
  transitionStartTime : ℚ
  transitionDuration : ℚ
  easing : ℚ → ℚ
  hasCallback : Bool

/-- `AnimationController.startTransition`: record start time, duration,
easing and callback, and enter the transitioning state. -/
def AnimationController.startTransition (nowMs duration : ℚ) (easing : ℚ → ℚ)
    (hasCallback : Bool) : AnimState :=
  { isTransitioning := true, transitionStartTime := nowMs,
    transitionDuration := duration, easing := easing, hasCallback := hasCallback }

/-- The progress `AnimationController.updateTransition` computes at clock
time `now`: `min (elapsed / duration) 1`. -/
def AnimState.progressAt (st : AnimState) (now : ℚ) : ℚ :=
  min ((now - st.transitionStartTime) / st.transitionDuration) 1

/-- `AnimationController.updateTransition` at clock time `now` (the
source reads `Date.now()`): returns the controller state, the updated
particle list, and whether the completion callback was invoked on this
call. -/
def AnimationController.updateTransition (st : AnimState) (now : ℚ) (ps : List Particle)
    (sqrtFn : ℚ → ℚ) : AnimState × List Particle × Bool :=
  if st.isTransitioning = false then (st, ps, false)
  else
    let progress := st.progressAt now
    let ps' := ps.map fun p => p.updateTransition progress st.easing sqrtFn
    if progress ≥ 1 then
      ({ st with isTransitioning := false }, ps', st.hasCallback)
    else (st, ps', false)

/-- A sequence of `updateTransition` calls at the given clock times,
accumulating the number of callback invocations. -/
def runTransitions (sqrtFn : ℚ → ℚ) : AnimState → List Particle → List ℚ →
    AnimState × List Particle × ℕ
  | st, ps, [] => (st, ps, 0)
  | st, ps, t :: ts =>
      let r := AnimationController.updateTransition st t ps sqrtFn
      let rest := runTransitions sqrtFn r.1 r.2.1 ts
      (rest.1, rest.2.1, (if r.2.2 then 1 else 0) + rest.2.2)

/-- A particle that has just been run with progress `≥ 1` is out of the
transitioning state, whatever its prior state. -/
theorem Particle.updateTransition_done (p : Particle) (progress : ℚ) (e f : ℚ → ℚ)
    (h : 1 ≤ progress) : (p.updateTransition progress e f).inTransition = false := by
  unfold Particle.updateTransition
  by_cases hp : p.inTransition = false
  · rw [if_pos hp]
    exact hp
  · rw [if_neg hp]
    dsimp only
    rw [if_pos h]

/-- `updateTransition` in the idle state is a complete no-op. -/
theorem AnimationController.updateTransition_idle (st : AnimState) (now : ℚ)
    (ps : List Particle) (f : ℚ → ℚ) (h : st.isTransitioning = false) :
    AnimationController.updateTransition st now ps f = (st, ps, false) := by
  unfold AnimationController.updateTransition
  rw [if_pos h]

/-- A run started in the idle state invokes no callback and changes
neither state nor particles. -/
theorem runTransitions_idle (st : AnimState) (ps : List Particle) (f : ℚ → ℚ)
    (ts : List ℚ) (h : st.isTransitioning = false) :
    runTransitions f st ps ts = (st, ps, 0) := by
  induction ts with
  | nil => rfl
  | cons t ts ih =>
    unfold runTransitions
    rw [AnimationController.updateTransition_idle st t ps f h]
    dsimp only
    rw [ih]
    simp

/-- C7: for a transition started with a callback, any sequence of
`updateTransition` calls whose computed progress reaches exactly `1`
invokes the completion callback exactly once; after that the engine is
idle (`isTransitioning = false`), every particle is out of the
transitioning state, and any further `updateTransition` calls invoke no
callback and change neither the engine state nor any particle. -/
theorem C7_transition_termination (f : ℚ → ℚ) (st : AnimState) (ps : List Particle)
    (ts : List ℚ)
    (hrun : st.isTransitioning = true) (hcb : st.hasCallback = true)
    (hreach : ∃ t ∈ ts, st.progressAt t = 1) :
    (runTransitions f st ps ts).2.2 = 1 ∧
    (runTransitions f st ps ts).1.isTransitioning = false ∧
    (∀ p ∈ (runTransitions f st ps ts).2.1, p.inTransition = false) ∧
    (∀ ts' : List ℚ,
      runTransitions f (runTransitions f st ps ts).1 (runTransitions f st ps ts).2.1 ts' =
        ((runTransitions f st ps ts).1, (runTransitions f st ps ts).2.1, 0)) := by
  induction ts generalizing ps with
  | nil => simp at hreach
  | cons t ts ih =>
    by_cases hge : st.progressAt t ≥ 1
    · have hstep : AnimationController.updateTransition st t ps f =
          ({ st with isTransitioning := false },
            ps.map fun p => p.updateTransition (st.progressAt t) st.easing f,
            st.hasCallback) := by
        unfold AnimationController.updateTransition
        rw [if_neg (by simp [hrun])]
        dsimp only
        rw [if_pos hge]
      have hidle : ({ st with isTransitioning := false } : AnimState).isTransitioning = false :=
        rfl
      have hEq : runTransitions f st ps (t :: ts) =
          ({ st with isTransitioning := false },
            ps.map fun p => p.updateTransition (st.progressAt t) st.easing f, 1) := by
        unfold runTransitions
        rw [hstep]
        dsimp only
        rw [runTransitions_idle _ _ f ts hidle]
        simp [hcb]
      rw [hEq]
      refine ⟨rfl, rfl, ?_, ?_⟩
      · intro p hp
        rw [List.mem_map] at hp
        obtain ⟨q, _, rfl⟩ := hp
        exact Particle.updateTransition_done q _ _ f hge
      · intro ts'
        exact runTransitions_idle _ _ f ts' hidle
    · have hstep : AnimationController.updateTransition st t ps f =
          (st, ps.map fun p => p.updateTransition (st.progressAt t) st.easing f, false) := by
        unfold AnimationController.updateTransition
        rw [if_neg (by simp [hrun])]
        dsimp only
        rw [if_neg hge]
      have hreach' : ∃ t' ∈ ts, st.progressAt t' = 1 := by
        obtain ⟨t', ht', hp⟩ := hreach
        rcases List.mem_cons.mp ht' with rfl | hmem
        · exact absurd (le_of_eq hp.symm) hge
        · exact ⟨t', hmem, hp⟩
      have hEq : runTransitions f st ps (t :: ts) =
          runTransitions f st (ps.map fun p => p.updateTransition (st.progressAt t) st.easing f)
            ts := by
        conv_lhs => rw [runTransitions]
        rw [hstep]
        simp
      rw [hEq]
      exact ih (ps.map fun p => p.updateTransition (st.progressAt t) st.easing f) hreach'

theorem C7_transition_termination_witness :
    (AnimationController.startTransition 0 1 id true).isTransitioning = true ∧
    (AnimationController.startTransition 0 1 id true).hasCallback = true ∧
    (∃ t ∈ ([2] : List ℚ), (AnimationController.startTransition 0 1 id true).progressAt t = 1) ∧
    ((runTransitions id (AnimationController.startTransition 0 1 id true)
        [mkTestParticle 0 0 0 0] [2]).2.2 = 1 ∧
      (runTransitions id (AnimationController.startTransition 0 1 id true)
        [mkTestParticle 0 0 0 0] [2]).1.isTransitioning = false ∧
      (∀ p ∈ (runTransitions id (AnimationController.startTransition 0 1 id true)
        [mkTestParticle 0 0 0 0] [2]).2.1, p.inTransition = false) ∧
      (∀ ts' : List ℚ,
        runTransitions id
            (runTransitions id (AnimationController.startTransition 0 1 id true)
              [mkTestParticle 0 0 0 0] [2]).1
            (runTransitions id (AnimationController.startTransition 0 1 id true)
              [mkTestParticle 0 0 0 0] [2]).2.1 ts' =
          ((runTransitions id (AnimationController.startTransition 0 1 id true)
              [mkTestParticle 0 0 0 0] [2]).1,
            (runTransitions id (AnimationController.startTransition 0 1 id true)
              [mkTestParticle 0 0 0 0] [2]).2.1, 0))) :=
  ⟨rfl, rfl,
    ⟨2, by norm_num, by norm_num [AnimState.progressAt, AnimationController.startTransition]⟩,
    C7_transition_termination id (AnimationController.startTransition 0 1 id true)
      [mkTestParticle 0 0 0 0] [2] rfl rfl
      ⟨2, by norm_num, by norm_num [AnimState.progressAt, AnimationController.startTransition]⟩⟩

/-- Oracle for the transcendental functions and constant the sphere
generator calls (`Math.acos`, `Math.sin`, `Math.cos`, `Math.PI`).  The
generator's placement law is proved for every oracle, hence in particular
for the true real-valued functions. -/
structure TrigOracle where
  pi : ℚ
  sin : ℚ → ℚ
  cos : ℚ → ℚ
  acos : ℚ → ℚ

/-- The source literal `1.618033988749895`, as an exact decimal. -/
def goldenRatioLiteral : ℚ := 1618033988749895 / 1000000000000000

/-- `ShapeManager.createSphere`'s particle placement: each particle, by
array index, receives the Fibonacci-sphere target
`phi = acos(1 - 2(i+0.5)/n)`, `theta = π·2·i·(1/1.618033988749895)`,
position `center + radius·(sin phi cos theta, sin phi sin theta,
cos phi)`. -/
def createSphere (tr : TrigOracle) (radius centerX centerY centerZ : ℚ)
    (ps : List Particle) : List Particle :=
  ps.mapIdx fun index particle =>
    let phi := tr.acos (1 - 2 * ((index : ℚ) + 1/2) / (ps.length : ℚ))
    let theta := tr.pi * 2 * (index : ℚ) * (1 / goldenRatioLiteral)
    let x := centerX + radius * tr.sin phi * tr.cos theta
    let y := centerY + radius * tr.sin phi * tr.sin theta
    let z := centerZ + radius * tr.cos phi
    particle.setTarget x y z

/-- C8: for every particle count `n > 0` and index `i < n`, the sphere
generator assigns particle `i` the target
`center + radius·(sin phi cos theta, sin phi sin theta, cos phi)` with
`phi = acos(1 - 2(i+0.5)/n)` and `theta = 2π·i·(1/1.618033988749895)`;
with an exact trig oracle the match is exact, hence within `1e-9` for the
`n = 4`, `radius = 1`, center-origin scenario. -/
theorem C8_sphere_generator (tr : TrigOracle) (radius cx cy cz : ℚ) (ps : List Particle)
    (i : ℕ) (hn : 0 < ps.length) (hi : i < ps.length) :
    (createSphere tr radius cx cy cz ps)[i]? =
      some ((ps.get ⟨i, hi⟩).setTarget
        (cx + radius * tr.sin (tr.acos (1 - 2 * ((i : ℚ) + 1/2) / (ps.length : ℚ))) *
          tr.cos (tr.pi * 2 * (i : ℚ) * (1 / goldenRatioLiteral)))
        (cy + radius * tr.sin (tr.acos (1 - 2 * ((i : ℚ) + 1/2) / (ps.length : ℚ))) *
          tr.sin (tr.pi * 2 * (i : ℚ) * (1 / goldenRatioLiteral)))
        (cz + radius * tr.cos (tr.acos (1 - 2 * ((i : ℚ) + 1/2) / (ps.length : ℚ))))) := by
  have hlen : i < (createSphere tr radius cx cy cz ps).length := by
    simpa [createSphere] using hi
  rw [List.getElem?_eq_getElem hlen]
  simp [createSphere, List.getElem_mapIdx]

theorem C8_sphere_generator_witness :
    0 < ([mkTestParticle 0 0 0 0, mkTestParticle 1 0 0 0, mkTestParticle 2 0 0 0,
        mkTestParticle 3 0 0 0] : List Particle).length ∧
    2 < ([mkTestParticle 0 0 0 0, mkTestParticle 1 0 0 0, mkTestParticle 2 0 0 0,
        mkTestParticle 3 0 0 0] : List Particle).length ∧
    (createSphere ⟨0, id, id, id⟩ 1 0 0 0
        [mkTestParticle 0 0 0 0, mkTestParticle 1 0 0 0, mkTestParticle 2 0 0 0,
          mkTestParticle 3 0 0 0])[2]? =
      some ((([mkTestParticle 0 0 0 0, mkTestParticle 1 0 0 0, mkTestParticle 2 0 0 0,
          mkTestParticle 3 0 0 0] : List Particle).get ⟨2, by norm_num⟩).setTarget
        (0 + 1 * id (id (1 - 2 * ((2 : ℚ) + 1/2) / (4 : ℚ))) *
          id ((0:ℚ) * 2 * (2 : ℚ) * (1 / goldenRatioLiteral)))
        (0 + 1 * id (id (1 - 2 * ((2 : ℚ) + 1/2) / (4 : ℚ))) *
          id ((0:ℚ) * 2 * (2 : ℚ) * (1 / goldenRatioLiteral)))
        (0 + 1 * id (id (1 - 2 * ((2 : ℚ) + 1/2) / (4 : ℚ))))) :=
  ⟨by norm_num, by norm_num,
    C8_sphere_generator ⟨0, id, id, id⟩ 1 0 0 0
      [mkTestParticle 0 0 0 0, mkTestParticle 1 0 0 0, mkTestParticle 2 0 0 0,
        mkTestParticle 3 0 0 0] 2 (by norm_num) (by norm_num)⟩

/-- A shape descriptor as returned by a generator: name, exclusion-zone
flag and parameters, and the `crossesExclusionZone` connection filter.
Camera preferences are a rendering collaborator's concern and are not
modelled. -/
structure Shape where
  name : String
  hasExclusionZone : Bool
  exclusionZone : Option ExclusionZone
  crosses : Particle → Particle → Bool

/-- A shape generator: consumes the particle array (assigning targets via
`setTarget`) and returns the updated array and the shape descriptor. -/
def ShapeGenerator := List Particle → List Particle × Shape

/-- `ShapeManager.createShape`: look up the generator by name; an unknown
name logs an error (`console.error`) and returns `null` (`none`) without
running any generator, so the particle array is untouched. -/
def ShapeManager.createShape (shapes : String → Option ShapeGenerator) (name : String)
    (ps : List Particle) : Option (List Particle × Shape) :=
  match shapes name with
  | none => none
  | some gen => some (gen ps)

/-- The `Particle3DMesh` state touched by `setShape`/`transitionToShape`. -/
structure MeshState where
  particles : List Particle
  currentShape : Option Shape
  targetShape : Option Shape
  anim : AnimState

/-- `Particle3DMesh.setShape`: assigns `createShape`'s result to
`currentShape` — on lookup failure that result is `null`, so the previous
shape does not remain. -/
def Particle3DMesh.setShape (st : MeshState) (shapes : String → Option ShapeGenerator)
    (name : String) : MeshState :=
  match ShapeManager.createShape shapes name st.particles with
  | none => { st with currentShape := none }
  | some r => { st with particles := r.1, currentShape := some r.2 }

/-- `Particle3DMesh.transitionToShape`: strip the exclusion zone from the
current shape (when it has one), create the target shape (`null` on
lookup failure), and start the animation, always passing a completion
callback (it later installs `targetShape` as `currentShape`). -/
def Particle3DMesh.transitionToShape (st : MeshState)
    (shapes : String → Option ShapeGenerator) (name : String) (nowMs duration : ℚ)
    (easing : ℚ → ℚ) : MeshState :=
  let cur : Option Shape :=
    match st.currentShape with
    | some s =>
        if s.hasExclusionZone then
          some { s with hasExclusionZone := false, exclusionZone := none }
        else some s
    | none => none
  match ShapeManager.createShape shapes name st.particles with
  | none =>
      { st with currentShape := cur, targetShape := none,
                anim := AnimationController.startTransition nowMs duration easing true }
  | some pr =>
      { st with particles := pr.1, currentShape := cur, targetShape := some pr.2,
                anim := AnimationController.startTransition nowMs duration easing true }

/-- A concrete active shape for the C3 counterexample. -/
def demoShape : Shape := ⟨"demo", false, none, fun _ _ => false⟩

/-- A concrete simulation state whose current shape is `demoShape`. -/
def demoState : MeshState :=
  ⟨[mkTestParticle 0 0 0 0], some demoShape, none, ⟨false, 0, 1, id, false⟩⟩

/-- C3 counterexample: calling `setShape` with a name absent from the
registry is reported as a lookup failure (`createShape` returns `none`)
and mutates no particle, but the previously active shape does NOT remain
current: `currentShape` becomes `null`. -/
theorem C3_unknown_shape_counterexample :
    ShapeManager.createShape (fun _ => none) "unknown" demoState.particles = none ∧
    (Particle3DMesh.setShape demoState (fun _ => none) "unknown").particles =
      demoState.particles ∧
    (Particle3DMesh.setShape demoState (fun _ => none) "unknown").currentShape = none ∧
    demoState.currentShape ≠ none := by
  refine ⟨rfl, rfl, rfl, ?_⟩
  simp [demoState]

/-- C3 (amended): an unknown shape name is reported as a lookup failure
(`createShape` returns `null` without running any generator) and no
particle state is mutated by either entry point; but the previously
active shape descriptor does not remain in effect: `setShape` sets
`currentShape` to `null`, and `transitionToShape` immediately replaces
the current shape by a copy with its exclusion zone stripped (the copy is
the shape itself when it had no zone) and sets the target shape to
`null`. -/
theorem C3_unknown_shape_amended (st : MeshState) (shapes : String → Option ShapeGenerator)
    (name : String) (nowMs duration : ℚ) (easing : ℚ → ℚ)
    (hmiss : shapes name = none) :
    ShapeManager.createShape shapes name st.particles = none ∧
    ((Particle3DMesh.setShape st shapes name).particles = st.particles ∧
      (Particle3DMesh.setShape st shapes name).currentShape = none) ∧
    ((Particle3DMesh.transitionToShape st shapes name nowMs duration easing).particles =
        st.particles ∧
      (Particle3DMesh.transitionToShape st shapes name nowMs duration easing).targetShape =
        none ∧
      (st.currentShape = none →
        (Particle3DMesh.transitionToShape st shapes name nowMs duration easing).currentShape =
          none) ∧
      (∀ s, st.currentShape = some s → s.hasExclusionZone = false →
        (Particle3DMesh.transitionToShape st shapes name nowMs duration easing).currentShape =
          some s) ∧
      (∀ s, st.currentShape = some s → s.hasExclusionZone = true →
        (Particle3DMesh.transitionToShape st shapes name nowMs duration easing).currentShape =
          some { s with hasExclusionZone := false, exclusionZone := none })) := by
  have hc : ShapeManager.createShape shapes name st.particles = none := by
    unfold ShapeManager.createShape
    rw [hmiss]
  refine ⟨hc, ⟨?_, ?_⟩, ?_, ?_, ?_, ?_, ?_⟩
  · unfold Particle3DMesh.setShape
    rw [hc]
  · unfold Particle3DMesh.setShape
    rw [hc]
  · unfold Particle3DMesh.transitionToShape
    rw [hc]
  · unfold Particle3DMesh.transitionToShape
    rw [hc]
  · intro h0
    unfold Particle3DMesh.transitionToShape
    rw [hc]
    simp [h0]
  · intro s hs hz
    unfold Particle3DMesh.transitionToShape
    rw [hc]
    simp [hs, hz]
  · intro s hs hz
    unfold Particle3DMesh.transitionToShape
    rw [hc]
    simp [hs, hz]

theorem C3_unknown_shape_amended_witness :
    ((fun _ : String => (none : Option ShapeGenerator)) "unknown" = none) ∧
    (ShapeManager.createShape (fun _ => none) "unknown" demoState.particles = none ∧
      ((Particle3DMesh.setShape demoState (fun _ => none) "unknown").particles =
          demoState.particles ∧
        (Particle3DMesh.setShape demoState (fun _ => none) "unknown").currentShape = none) ∧
      ((Particle3DMesh.transitionToShape demoState (fun _ => none) "unknown" 0 1
            id).particles = demoState.particles ∧
        (Particle3DMesh.transitionToShape demoState (fun _ => none) "unknown" 0 1
            id).targetShape = none ∧
        (demoState.currentShape = none →
          (Particle3DMesh.transitionToShape demoState (fun _ => none) "unknown" 0 1
              id).currentShape = none) ∧
        (∀ s, demoState.currentShape = some s → s.hasExclusionZone = false →
          (Particle3DMesh.transitionToShape demoState (fun _ => none) "unknown" 0 1
              id).currentShape = some s) ∧
        (∀ s, demoState.currentShape = some s → s.hasExclusionZone = true →
          (Particle3DMesh.transitionToShape demoState (fun _ => none) "unknown" 0 1
              id).currentShape =
            some { s with hasExclusionZone := false, exclusionZone := none }))) :=
  ⟨rfl, C3_unknown_shape_amended demoState (fun _ => none) "unknown" 0 1 id rfl⟩

/-- JS `this.particles.indexOf(p)` with `===` object identity (modelled by
`id`): the first index whose element carries the same id. -/
def indexOfParticle (ps : List Particle) (p : Particle) : ℕ :=
  ps.findIdx fun q => decide (q.id = p.id)

/-- The connection filter of the tick loop for fixed `p1` and candidate
`p2`: skip self-connections and duplicate pairs
(`p1 === p2 || indexOf(p1) > indexOf(p2)`), require the distance below the
threshold (the source's `Math.sqrt(…) < CONNECTION_DISTANCE` stated on
squares, equivalent for a positive threshold), and drop pairs crossing the
active exclusion zone (`crosses` is `some f` exactly when
`currentShape && currentShape.hasExclusionZone` is truthy, with `f` the
shape's `crossesExclusionZone`). -/
def keepConnection (ps : List Particle) (D : ℚ)
    (crosses : Option (Particle → Particle → Bool)) (p1 p2 : Particle) : Bool :=
  !(decide (p1.id = p2.id) || decide (indexOfParticle ps p1 > indexOfParticle ps p2)) &&
    decide (distSq p1 p2 < D * D) &&
    !(match crosses with
      | some f => f p1 p2
      | none => false)

/-- One iteration of the connection loop: the kept `{p1, p2}` pairs from
`p1`'s grid neighborhood, in neighborhood order. -/
def connectionsFor (ps : List Particle) (grid : SpatialGrid) (D : ℚ)
    (crosses : Option (Particle → Particle → Bool)) (p1 : Particle) :
    List (Particle × Particle) :=
  ((grid.getParticlesInNeighborhood (grid.getCellKey p1.x p1.y p1.z)).filter
    (keepConnection ps D crosses p1)).map fun p2 => (p1, p2)

/-- The per-tick connection list of `Particle3DMesh.animate`: rebuild the
grid from the particle array, then for each particle in array order emit
its kept pairs. -/
def tickConnections (cellSize bound D : ℚ)
    (crosses : Option (Particle → Particle → Bool)) (ps : List Particle) :
    List (Particle × Particle) :=
  ps.flatMap
    (connectionsFor ps ((SpatialGrid.mk cellSize bound fun _ => []).addParticles ps) D
      crosses)

/-- Two emitted connections describe the same unordered particle pair. -/
def sameUnorderedPair (c c' : Particle × Particle) : Prop :=
  (c.1.id = c'.1.id ∧ c.2.id = c'.2.id) ∨ (c.1.id = c'.2.id ∧ c.2.id = c'.1.id)

theorem pairwise_id_ne_of_nodup (ps : List Particle) (h : (ps.map Particle.id).Nodup) :
    ps.Pairwise fun a b => a.id ≠ b.id :=
  List.pairwise_map.mp h

theorem id_inj_of_pairwise (ps : List Particle) (h : ps.Pairwise fun a b => a.id ≠ b.id) :
    ∀ x ∈ ps, ∀ y ∈ ps, x.id = y.id → x = y := by
  induction ps with
  | nil => simp
  | cons a l ih =>
    rw [List.pairwise_cons] at h
    intro x hx y hy hxy
    rcases List.mem_cons.mp hx with rfl | hx' <;> rcases List.mem_cons.mp hy with rfl | hy'
    · rfl
    · exact absurd hxy (h.1 y hy')
    · exact absurd hxy.symm (h.1 x hx')
    · exact ih h.2 x hx' y hy' hxy

/-- Particles at equal `indexOf` positions carry equal ids. -/
theorem findIdx_id_inj (ps : List Particle) (h : ps.Pairwise fun a b => a.id ≠ b.id) :
    ∀ p ∈ ps, ∀ q ∈ ps, indexOfParticle ps p = indexOfParticle ps q → p.id = q.id := by
  induction ps with
  | nil => simp
  | cons a l ih =>
    rw [List.pairwise_cons] at h
    intro p hp q hq heq
    unfold indexOfParticle at heq
    rw [List.findIdx_cons, List.findIdx_cons] at heq
    by_cases hpa : a.id = p.id <;> by_cases hqa : a.id = q.id
    · rw [← hpa, ← hqa]
    · rw [decide_eq_true hpa, decide_eq_false hqa] at heq
      simp at heq
    · rw [decide_eq_false hpa, decide_eq_true hqa] at heq
      simp at heq
    · have hp' : p ∈ l := by
        rcases List.mem_cons.mp hp with rfl | h'
        · exact absurd rfl hpa
        · exact h'
      have hq' : q ∈ l := by
        rcases List.mem_cons.mp hq with rfl | h'
        · exact absurd rfl hqa
        · exact h'
      rw [decide_eq_false hpa, decide_eq_false hqa] at heq
      simp only [cond_false, Nat.add_right_cancel_iff] at heq
      exact ih h.2 p hp' q hq' heq

/-- `getNeighborKeys` lists 27 pairwise-distinct keys. -/
theorem neighborKeys_pairwise_ne (k : ℤ × ℤ × ℤ) :
    (SpatialGrid.getNeighborKeys k).Pairwise (· ≠ ·) := by
  have hbase : ([-1, 0, 1] : List ℤ).Pairwise (· ≠ ·) := by decide
  unfold SpatialGrid.getNeighborKeys
  rw [List.pairwise_flatMap]
  constructor
  · intro dx _
    rw [List.pairwise_flatMap]
    constructor
    · intro dy _
      rw [List.pairwise_map]
      refine hbase.imp ?_
      intro dz1 dz2 hne heq
      have h3 := congrArg (fun t => t.2.2) heq
      simp only at h3
      exact hne (by omega)
    · refine hbase.imp ?_
      intro dy1 dy2 hne x hx y hy heq
      obtain ⟨dz1, _, rfl⟩ := List.mem_map.mp hx
      obtain ⟨dz2, _, rfl⟩ := List.mem_map.mp hy
      have h2 := congrArg (fun t => t.2.1) heq
      simp only at h2
      exact hne (by omega)
  · refine hbase.imp ?_
    intro dx1 dx2 hne x hx y hy heq
    obtain ⟨dy1, _, hx'⟩ := List.mem_flatMap.mp hx
    obtain ⟨dz1, _, rfl⟩ := List.mem_map.mp hx'
    obtain ⟨dy2, _, hy'⟩ := List.mem_flatMap.mp hy
    obtain ⟨dz2, _, rfl⟩ := List.mem_map.mp hy'
    have h1 := congrArg (fun t => t.1) heq
    simp only at h1
    exact hne (by omega)

/-- Every particle of a (rebuilt) grid's neighborhood query comes from the
indexed particle set. -/
theorem mem_of_mem_neighborhood (g : SpatialGrid) (ps : List Particle) (k : ℤ × ℤ × ℤ)
    (q : Particle) (hq : q ∈ (g.addParticles ps).getParticlesInNeighborhood k) : q ∈ ps := by
  unfold SpatialGrid.getParticlesInNeighborhood at hq
  obtain ⟨key, _, hmem⟩ := List.mem_bind.mp hq
  rw [SpatialGrid.addParticles_grid] at hmem
  exact (List.mem_filter.mp hmem).1

/-- With pairwise-distinct ids, a neighborhood query lists pairwise
distinct ids (each particle sits in exactly one bucket and the 27 buckets
are disjoint). -/
theorem neighborhood_pairwise_id_ne (g : SpatialGrid) (ps : List Particle) (k : ℤ × ℤ × ℤ)
    (h : ps.Pairwise fun a b => a.id ≠ b.id) :
    ((g.addParticles ps).getParticlesInNeighborhood k).Pairwise fun a b => a.id ≠ b.id := by
  unfold SpatialGrid.getParticlesInNeighborhood
  rw [List.pairwise_bind]
  constructor
  · intro key _
    rw [SpatialGrid.addParticles_grid]
    exact h.sublist (List.filter_sublist ps)
  · refine (neighborKeys_pairwise_ne k).imp ?_
    intro k1 k2 hne x hx y hy hxy
    rw [SpatialGrid.addParticles_grid] at hx hy
    have hx1 := (List.mem_filter.mp hx).1
    have hx2 : g.getCellKey x.x x.y x.z = k1 :=
      of_decide_eq_true (List.mem_filter.mp hx).2
    have hy1 := (List.mem_filter.mp hy).1
    have hy2 : g.getCellKey y.x y.y y.z = k2 :=
      of_decide_eq_true (List.mem_filter.mp hy).2
    have hxyeq := id_inj_of_pairwise ps h x hx1 y hy1 hxy
    exact hne (by rw [← hx2, ← hy2, hxyeq])

/-- Unfolding membership in one iteration's kept pairs. -/
theorem mem_connectionsFor (ps : List Particle) (grid : SpatialGrid) (D : ℚ)
    (crosses : Option (Particle → Particle → Bool)) (p1 : Particle)
    (c : Particle × Particle) :
    c ∈ connectionsFor ps grid D crosses p1 ↔
      ∃ p2, p2 ∈ grid.getParticlesInNeighborhood (grid.getCellKey p1.x p1.y p1.z) ∧
        keepConnection ps D crosses p1 p2 = true ∧ c = (p1, p2) := by
  unfold connectionsFor
  constructor
  · intro hc
    obtain ⟨p2, hmem, rfl⟩ := List.mem_map.mp hc
    obtain ⟨hnb, hkeep⟩ := List.mem_filter.mp hmem
    exact ⟨p2, hnb, hkeep, rfl⟩
  · rintro ⟨p2, hnb, hkeep, rfl⟩
    exact List.mem_map.mpr ⟨p2, List.mem_filter.mpr ⟨hnb, hkeep⟩, rfl⟩

/-- What a surviving filter candidate guarantees: distinct ids and a
non-decreasing `indexOf` pair. -/
theorem keepConnection_imp (ps : List Particle) (D : ℚ)
    (crosses : Option (Particle → Particle → Bool)) (p1 p2 : Particle)
    (h : keepConnection ps D crosses p1 p2 = true) :
    p1.id ≠ p2.id ∧ indexOfParticle ps p1 ≤ indexOfParticle ps p2 := by
  unfold keepConnection at h
  simp only [Bool.and_eq_true, Bool.not_eq_true', Bool.or_eq_false_iff,
    decide_eq_false_iff_not, not_lt] at h
  exact ⟨h.1.1.1, h.1.1.2⟩

/-- `indexOf` depends only on the probe's id. -/
theorem indexOfParticle_congr (ps : List Particle) (a b : Particle) (h : a.id = b.id) :
    indexOfParticle ps a = indexOfParticle ps b := by
  unfold indexOfParticle
  simp only [h]

/-- C10: in the connection list emitted by a tick over a particle array
with pairwise-distinct identities, no connection pairs a particle with
itself, every kept pair has the first particle's array index not greater
than the second's, and each unordered pair of distinct particles occurs
at most once. -/
theorem C10_connection_dedup (cellSize bound D : ℚ)
    (crosses : Option (Particle → Particle → Bool)) (ps : List Particle)
    (hnodup : (ps.map Particle.id).Nodup) :
    (∀ c ∈ tickConnections cellSize bound D crosses ps, c.1.id ≠ c.2.id) ∧
    (∀ c ∈ tickConnections cellSize bound D crosses ps,
      indexOfParticle ps c.1 ≤ indexOfParticle ps c.2) ∧
    (tickConnections cellSize bound D crosses ps).Pairwise
      (fun c c' => ¬ sameUnorderedPair c c') := by
  have hpw : ps.Pairwise fun a b => a.id ≠ b.id := pairwise_id_ne_of_nodup ps hnodup
  refine ⟨?_, ?_, ?_⟩
  · intro c hc
    obtain ⟨p1, _, hcf⟩ := List.mem_flatMap.mp hc
    obtain ⟨p2, _, hkeep, rfl⟩ := (mem_connectionsFor _ _ _ _ _ _).mp hcf
    exact (keepConnection_imp ps D crosses p1 p2 hkeep).1
  · intro c hc
    obtain ⟨p1, _, hcf⟩ := List.mem_flatMap.mp hc
    obtain ⟨p2, _, hkeep, rfl⟩ := (mem_connectionsFor _ _ _ _ _ _).mp hcf
    exact (keepConnection_imp ps D crosses p1 p2 hkeep).2
  · unfold tickConnections
    rw [List.pairwise_flatMap]
    constructor
    · intro p1 _
      unfold connectionsFor
      rw [List.pairwise_map]
      have hfil :
          ((((SpatialGrid.mk cellSize bound fun _ => []).addParticles
              ps).getParticlesInNeighborhood
            (((SpatialGrid.mk cellSize bound fun _ => []).addParticles ps).getCellKey
              p1.x p1.y p1.z)).filter (keepConnection ps D crosses p1)).Pairwise
            (fun a b => a.id ≠ b.id) :=
        (neighborhood_pairwise_id_ne _ ps _ hpw).sublist (List.filter_sublist _)
      refine List.Pairwise.imp_of_mem ?_ hfil
      intro a b ha hb hab
      have hkb := (List.mem_filter.mp hb).2
      have h1b := (keepConnection_imp ps D crosses p1 b hkb).1
      intro hsame
      rcases hsame with ⟨_, h2⟩ | ⟨h2, _⟩
      · exact hab h2
      · exact h1b h2
    · refine List.Pairwise.imp_of_mem ?_ hpw
      intro p1 p1' hp1 hp1' hne c hc c' hc'
      obtain ⟨a, _, hka, rfl⟩ := (mem_connectionsFor _ _ _ _ _ _).mp hc
      obtain ⟨b, _, hkb, rfl⟩ := (mem_connectionsFor _ _ _ _ _ _).mp hc'
      intro hsame
      rcases hsame with ⟨h1, _⟩ | ⟨h1, h2⟩
      · exact hne h1
      · have hle1 := (keepConnection_imp ps D crosses p1 a hka).2
        have hle2 := (keepConnection_imp ps D crosses p1' b hkb).2
        have e1 : indexOfParticle ps a = indexOfParticle ps p1' :=
          indexOfParticle_congr ps a p1' h2
        have e2 : indexOfParticle ps b = indexOfParticle ps p1 :=
          indexOfParticle_congr ps b p1 h1.symm
        have hidx : indexOfParticle ps p1 = indexOfParticle ps p1' :=
          le_antisymm (e1 ▸ hle1) (e2 ▸ hle2)
        exact hne (findIdx_id_inj ps hpw p1 hp1 p1' hp1' hidx)

theorem C10_connection_dedup_witness :
    (([mkTestParticle 0 0 0 0, mkTestParticle 1 1 0 0].map Particle.id).Nodup) ∧
    ((∀ c ∈ tickConnections 2 10 2 none [mkTestParticle 0 0 0 0, mkTestParticle 1 1 0 0],
        c.1.id ≠ c.2.id) ∧
      (∀ c ∈ tickConnections 2 10 2 none [mkTestParticle 0 0 0 0, mkTestParticle 1 1 0 0],
        indexOfParticle [mkTestParticle 0 0 0 0, mkTestParticle 1 1 0 0] c.1 ≤
          indexOfParticle [mkTestParticle 0 0 0 0, mkTestParticle 1 1 0 0] c.2) ∧
      (tickConnections 2 10 2 none
          [mkTestParticle 0 0 0 0, mkTestParticle 1 1 0 0]).Pairwise
        (fun c c' => ¬ sameUnorderedPair c c')) :=
  ⟨by decide,
    C10_connection_dedup 2 10 2 none [mkTestParticle 0 0 0 0, mkTestParticle 1 1 0 0]
      (by decide)⟩

end PNA
